import Mathlib

/-!
Formal model of the AutoTranscribe ingestion-and-orchestration core.

The definitions below are a shallow embedding of the Python sources under
`scripts/`: the progress state machine (`progress.py`), the per-task pipeline
entry (`main.py`, `process_video`), the file-stability wait (`watcher.py`,
`VideoHandler._wait_for_stable`), the naming/index routine
(`file_manager.py`), the FunASR result normalization (`transcriber.py`,
`_parse_funasr_result`) and the confirmation dialog (`notifier.py`).

Modelling conventions:
- Python strings are Lean `String`s; where Python slices/indexes by code
  point we use `String.toList`/`List Char` operations, which agree.
- Python `int` is Lean `Int` (`Nat` where the source value is a count).
- Python `float` values (file sizes in MB, durations) are carried as `Int`:
  no claim inspects fractional parts, and the display-only
  `round(x, 1)` in `add_to_queue`/`_write_status` is not modelled.
- Wall-clock reads (`time.time()`, `datetime.now().strftime(...)`) become
  explicit parameters (`now : Nat` in seconds, or a pre-formatted string).
- `ProgressManager._write_status` serializes the whole snapshot to
  `status.json`; we track only the fact that a serialization happened, as a
  counter `writes` incremented by every mutating method, exactly where the
  source calls `_write_status()`.
-/

namespace AutoTranscribe

/-- One entry of `STAGES` in `progress.py`: display order, label and the
fixed base percent of the stage. -/
structure StageInfo where
  order : Nat
  label : String
  progress : Int
deriving DecidableEq

/-- The `STAGES` dict of `progress.py` (lines 17-26), as a lookup function
from the stage key to its info. -/
def STAGES (s : String) : Option StageInfo :=
  if s = "idle" then some ⟨0, "⏸  空闲待机", 0⟩
  else if s = "waiting" then some ⟨1, "🚀 准备开始", 5⟩
  else if s = "extract" then some ⟨2, "🎵 提取音频 (1/4)", 15⟩
  else if s = "detect" then some ⟨3, "🌐 检测语言 (2/4)", 25⟩
  else if s = "transcribe" then some ⟨4, "📝 转录中 (3/4)", 40⟩
  else if s = "save" then some ⟨5, "💾 保存文件 (4/4)", 90⟩
  else if s = "done" then some ⟨6, "✅ 转录完成", 100⟩
  else if s = "failed" then some ⟨6, "❌ 转录失败", 100⟩
  else none

/-- `STAGES.get(key, STAGES["idle"])` — lookup falling back to the idle
entry, as used in `_compute_progress` and `_write_status`. -/
def STAGES_get (s : String) : StageInfo :=
  (STAGES s).getD ⟨0, "⏸  空闲待机", 0⟩

/-- One element of the `_queue` list of `ProgressManager`
(`{filename, filesize_mb, queued_at}`). -/
structure QueueEntry where
  filename : String
  filesize_mb : Int
  queued_at : String
deriving DecidableEq

/-- One element of the `_history` list appended by `ProgressManager.finish`.
The Python dict carries a `lang` key only on success and an `error` key only
on failure; the `Option` fields record that presence. -/
structure HistoryEntry where
  time : String
  file : String
  result : String
  lang : Option String
  error : Option String
  elapsed : String
deriving DecidableEq

/-- The mutable fields of `ProgressManager` (`progress.py`, `__init__`),
plus `writes`, the number of `_write_status` serializations performed. -/
structure ProgressState where
  start_time : Option Nat
  filename : String
  filesize_mb : Int
  duration_sec : Int
  current_stage : String
  detail : String
  transcribe_percent : Int
  error : String
  history : List HistoryEntry
  total_completed : Nat
  total_failed : Nat
  queue : List QueueEntry
  writes : Nat
deriving DecidableEq

/-- Effect of `_write_status`: the full snapshot is serialized to
`status.json`; only the occurrence is tracked. -/
def write_status (st : ProgressState) : ProgressState :=
  { st with writes := st.writes + 1 }

/-- `ProgressManager.__init__`: zero values everywhere, then an initial
`_write_status()`. -/
def initState : ProgressState :=
  write_status
    { start_time := none
      filename := ""
      filesize_mb := 0
      duration_sec := 0
      current_stage := "idle"
      detail := ""
      transcribe_percent := 0
      error := ""
      history := []
      total_completed := 0
      total_failed := 0
      queue := []
      writes := 0 }

/-- `ProgressManager._elapsed` at wall-clock time `now` (seconds). -/
def elapsed_sec (st : ProgressState) (now : Nat) : Nat :=
  match st.start_time with
  | none => 0
  | some t => now - t

/-- `ProgressManager._elapsed_str` at wall-clock time `now`. -/
def elapsed_str (st : ProgressState) (now : Nat) : String :=
  let s := elapsed_sec st now
  if s < 60 then toString s ++ "s"
  else toString (s / 60) ++ "m" ++ toString (s % 60) ++ "s"

/-- `ProgressManager._compute_progress` (`progress.py`, lines 75-85).
For the positive percent guarded here, Python's `int(tp * 0.5)` equals
floor division `tp / 2` (the product is an exactly representable half). -/
def compute_progress (st : ProgressState) : Int :=
  if st.current_stage = "transcribe" ∧ 0 < st.transcribe_percent then
    min ((STAGES_get st.current_stage).progress + st.transcribe_percent / 2) 90
  else
    (STAGES_get st.current_stage).progress

/-- `ProgressManager.start`. -/
def start (st : ProgressState) (now : Nat) (filename : String)
    (filesize_mb : Int) (duration_sec : Int) : ProgressState :=
  write_status
    { st with
      start_time := some now
      filename := filename
      filesize_mb := filesize_mb
      duration_sec := duration_sec
      current_stage := "waiting"
      detail := ""
      transcribe_percent := 0
      error := "" }

/-- `ProgressManager.update`. -/
def update (st : ProgressState) (stage : String) (detail : String)
    (transcribe_percent : Int) (duration_sec : Int) : ProgressState :=
  let st1 := { st with current_stage := stage }
  let st2 := if detail ≠ "" then { st1 with detail := detail } else st1
  let st3 := if 0 < transcribe_percent
    then { st2 with transcribe_percent := transcribe_percent } else st2
  let st4 := if 0 < duration_sec
    then { st3 with duration_sec := duration_sec } else st3
  write_status st4

/-- `ProgressManager.update_transcribe_progress`. -/
def update_transcribe_progress (st : ProgressState) (percent : Int)
    (detail : String) : ProgressState :=
  let st1 := { st with transcribe_percent := min percent 100 }
  let st2 := if detail ≠ "" then { st1 with detail := detail } else st1
  write_status st2

/-- `ProgressManager.finish` (`progress.py`, lines 161-196). `nowStr` is
`datetime.now().strftime("%H:%M:%S")`, `now` the wall clock in seconds. -/
def finish (st : ProgressState) (nowStr : String) (now : Nat)
    (success : Bool) (lang : String) (segments : Nat) (speakers : Nat) :
    ProgressState :=
  let elapsed := elapsed_str st now
  let st1 :=
    if success then
      { st with
        current_stage := "done"
        transcribe_percent := 100
        detail := "语言: " ++ lang ++ " | 片段: " ++ toString segments ++
          " | 说话人: " ++ toString speakers
        total_completed := st.total_completed + 1
        history := st.history ++
          [{ time := nowStr
             file := st.filename
             result := "✅"
             lang := some lang
             error := none
             elapsed := elapsed }] }
    else
      { st with
        current_stage := "failed"
        total_failed := st.total_failed + 1
        history := st.history ++
          [{ time := nowStr
             file := st.filename
             result := "❌"
             lang := none
             error := some (st.error.take 50)
             elapsed := elapsed }] }
  write_status st1

/-- `ProgressManager.set_error`. -/
def set_error (st : ProgressState) (error : String) : ProgressState :=
  write_status { st with error := error }

/-- `ProgressManager.reset_to_idle` (`progress.py`, lines 203-213). -/
def reset_to_idle (st : ProgressState) : ProgressState :=
  write_status
    { st with
      current_stage := "idle"
      filename := ""
      filesize_mb := 0
      duration_sec := 0
      detail := ""
      transcribe_percent := 0
      error := ""
      start_time := none }

/-- `ProgressManager.add_to_queue`; `nowStr` is the formatted enqueue time. -/
def add_to_queue (st : ProgressState) (filename : String)
    (filesize_mb : Int) (nowStr : String) : ProgressState :=
  write_status
    { st with queue := st.queue ++
        [{ filename := filename
           filesize_mb := filesize_mb
           queued_at := nowStr }] }

/-- `ProgressManager.remove_from_queue` (`progress.py`, lines 226-229):
keep only the entries whose filename differs from the given one. -/
def remove_from_queue (st : ProgressState) (filename : String) :
    ProgressState :=
  write_status
    { st with queue := st.queue.filter (fun item => item.filename != filename) }

/-! ## ProcessedRecord and the pipeline entry (`file_manager.py`, `main.py`) -/

/-- `file_manager.is_processed`: membership of the absolute path in the
persisted `processed.json` list, modelled here as the in-memory list. -/
def is_processed (processed : List String) (filepath : String) : Bool :=
  processed.contains filepath

/-- `file_manager.mark_processed`: set-insert of the path (the source loads
the JSON list as a Python set, adds, and saves it back). -/
def mark_processed (processed : List String) (filepath : String) :
    List String :=
  if processed.contains filepath then processed else processed ++ [filepath]

/-- The observable state touched by `process_video`: the progress snapshot,
the ProcessedRecord ledger, and the names of files moved into the managed
`video/` directory by `move_video`. -/
structure SysState where
  prog : ProgressState
  processed : List String
  movedFiles : List String
deriving DecidableEq

/-- `main.process_video` (`main.py`, lines 106-122), up to the
already-processed guard. The source first removes the task's filename from
the queue view, then re-checks ProcessedRecord and returns if the path is
already present; otherwise it calls `progress.start`, `mark_processed`, and
runs the staged try/except pipeline body, which invokes external
collaborators (ffmpeg, FunASR, dialogs) and is abstracted here as `rest`.
`filename` is `video_path.name` and `filesize_mb` its size from `stat`. -/
def process_video (rest : SysState → SysState) (now : Nat) (s : SysState)
    (path filename : String) (filesize_mb : Int) : SysState :=
  let s1 : SysState := { s with prog := remove_from_queue s.prog filename }
  if is_processed s1.processed path then s1
  else
    let s2 : SysState := { s1 with prog := start s1.prog now filename filesize_mb 0 }
    let s3 : SysState := { s2 with processed := mark_processed s2.processed path }
    rest s3

/-! ## Stability wait (`watcher.py`, `VideoHandler._wait_for_stable`) -/

/-- What one poll of the watched path can observe: the path does not exist,
`stat` raises `OSError`, or `stat` returns a size. -/
inductive Obs where
  | missing : Obs
  | ioerr : Obs
  | size : Nat → Obs
deriving DecidableEq

/-- `config.FILE_STABLE_CHECK_INTERVAL` (seconds between polls). -/
def FILE_STABLE_CHECK_INTERVAL : Nat := 2

/-- `config.FILE_STABLE_MAX_WAIT` (total wait budget in seconds). -/
def FILE_STABLE_MAX_WAIT : Nat := 300

/-- The loop body of `_wait_for_stable` (`watcher.py`, lines 92-113).
`obs k` is what the k-th poll observes, `n` the current poll index (so the
accumulated `waited` is `n * interval`), `prev` the previous size sample
(initially `-1`). The loop terminates because `waited` grows by
`interval ≥ 1` each round; `fuel` is a structural bound on the remaining
iterations, chosen large enough at the top level (see `wait_from_iff`). -/
def wait_from (obs : Nat → Obs) (interval maxWait : Nat) :
    Int → Nat → Nat → Bool
  | _, _, 0 => false
  | prev, n, fuel + 1 =>
    if n * interval < maxWait then
      match obs n with
      | Obs.missing => false
      | Obs.ioerr => false
      | Obs.size sz =>
        if 0 < sz ∧ (sz : Int) = prev then true
        else wait_from obs interval maxWait (sz : Int) (n + 1) fuel
    else false

/-- `VideoHandler._wait_for_stable`, generalized over the two config
constants: start with `waited = 0` and `prev_size = -1`. -/
def wait_for_stable (obs : Nat → Obs) (interval maxWait : Nat) : Bool :=
  wait_from obs interval maxWait (-1) 0 (maxWait + 1)

/-! ## Naming and index generation (`file_manager.py`) -/

/-- Decimal value of an ASCII digit. -/
def digitVal (c : Char) : Nat := c.toNat - 48

/-- Continuation of Python `int(...)` digit parsing: digits with single
underscores allowed between two digits (`int("1_2") == 12`). -/
def parseDigitsTail (acc : Nat) : List Char → Option Nat
  | [] => some acc
  | c :: cs =>
    if c.isDigit then parseDigitsTail (acc * 10 + digitVal c) cs
    else if c = '_' then
      match cs with
      | [] => none
      | d :: cs2 =>
        if d.isDigit then parseDigitsTail (acc * 10 + digitVal d) cs2
        else none
    else none

/-- Nonempty digit run (first char must be a digit). -/
def parseDigits : List Char → Option Nat
  | [] => none
  | c :: cs => if c.isDigit then parseDigitsTail (digitVal c) cs else none

/-- Python `int(str)` on the suffix scanned by `get_next_index`: optional
surrounding whitespace, optional sign, ASCII digits with single underscores
between digits; anything else raises `ValueError` (here: `none`).
(Unicode digits, accepted by Python, are out of scope.) -/
def pyInt (cs : List Char) : Option Int :=
  let trimmed :=
    ((cs.dropWhile Char.isWhitespace).reverse.dropWhile Char.isWhitespace).reverse
  match trimmed with
  | '+' :: rest => (parseDigits rest).map (fun n => (n : Int))
  | '-' :: rest => (parseDigits rest).map (fun n => -(n : Int))
  | rest => (parseDigits rest).map (fun n => (n : Int))

/-- `a` starts with `b` (Python `str.startswith`, over code points). -/
def listStartsWith : List Char → List Char → Bool
  | _, [] => true
  | [], _ :: _ => false
  | a :: as, b :: bs => a = b && listStartsWith as bs

/-- The `fail_`-stripping step of `get_next_index` (`file_manager.py`,
lines 57-59): `if name.startswith("fail_"): name = name[5:]`. -/
def stripFail (cs : List Char) : List Char :=
  if listStartsWith cs ("fail_".toList) then cs.drop 5 else cs

/-- The `{year}_{month}_{day}_{lang}_` filename pattern (Python f-string
on the datetime fields; ints render without padding). -/
def datePrefix (y m d : Nat) (lang : String) : String :=
  toString y ++ "_" ++ toString m ++ "_" ++ toString d ++ "_" ++ lang ++ "_"

/-- The `existing` list collected by `get_next_index` (`file_manager.py`,
lines 51-66): for every file stem in the managed `video/` directory, strip a
`fail_` prefix, keep stems starting with the date/lang pattern, and parse
the remaining suffix as an int, skipping parse failures. `files` is the
directory listing as a list of stems (`Path.stem`). -/
def parsedIndices (files : List String) (y m d : Nat) (lang : String) :
    List Int :=
  let pre := (datePrefix y m d lang).toList
  files.filterMap (fun f =>
    let name := stripFail f.toList
    if listStartsWith name pre then pyInt (name.drop pre.length) else none)

/-- Python `max(l, default=d)`: the default applies only to an empty list. -/
def pyMaxD : List Int → Int → Int
  | [], d => d
  | x :: xs, _ => xs.foldl max x

/-- `file_manager.get_next_index`: one more than the maximum parsed index
(default 0). -/
def get_next_index (files : List String) (y m d : Nat) (lang : String) :
    Int :=
  pyMaxD (parsedIndices files y m d lang) 0 + 1

/-- `file_manager.generate_standard_name` (lines 69-74). -/
def generate_standard_name (files : List String) (y m d : Nat)
    (lang : String) : String :=
  datePrefix y m d lang ++ toString (get_next_index files y m d lang)

/-! ## FunASR result normalization (`transcriber.py`, `_parse_funasr_result`) -/

/-- The normalized segment produced by the parser. `stop` models the dict
key `"end"` (a Lean keyword). -/
structure Seg where
  start : Int
  stop : Int
  text : String
  speaker : String
deriving DecidableEq

/-- The `spk` value inside a `sentence_info` entry: the collaborator emits
either an integer speaker id or a string label. -/
inductive Spk where
  | int : Int → Spk
  | str : String → Spk
deriving DecidableEq

/-- One `sentence_info` entry; `none` models an absent dict key (the source
reads each with `.get(key, default)`). `stop` models the key `"end"`. -/
structure Sentence where
  start : Option Int
  stop : Option Int
  text : Option String
  spk : Option Spk
deriving DecidableEq

/-- One element of the `timestamp` list: the source keeps it only when it
is a list/tuple of length at least 2 (`nums` with two leading elements). -/
inductive TSEntry where
  | nums : List Int → TSEntry
  | notList : TSEntry
deriving DecidableEq

/-- One element of the FunASR result list: a dict (with the three keys the
parser reads, each possibly absent) or any other value, kept via `str(...)`. -/
inductive Item where
  | dict : Option String → Option (List Sentence) → Option (List TSEntry) → Item
  | other : String → Item
deriving DecidableEq

/-- Normalization of one `sentence_info` entry (`transcriber.py`, lines
262-274): missing `start`/`end`/`text` default to 0/0/"", an integer `spk`
renders as `spk{n}`, a string `spk` is kept (Python `str` of a string). -/
def normSent (s : Sentence) : Seg :=
  { start := s.start.getD 0
    stop := s.stop.getD 0
    text := s.text.getD ""
    speaker :=
      match s.spk with
      | none => ""
      | some (Spk.int n) => "spk" ++ toString n
      | some (Spk.str v) => v }

/-- The `for i, ts in enumerate(timestamp)` loop of the flat-text branch
(`transcriber.py`, lines 280-287): one segment per well-formed span, the
flat text attached only at enumeration index 0. -/
def tsSegs (t : String) : Nat → List TSEntry → List Seg
  | _, [] => []
  | i, TSEntry.nums (a :: b :: _) :: rest =>
    { start := a
      stop := b
      text := if i = 0 then t else ""
      speaker := "" } :: tsSegs t (i + 1) rest
  | i, TSEntry.nums _ :: rest => tsSegs t (i + 1) rest
  | i, TSEntry.notList :: rest => tsSegs t (i + 1) rest

/-- Segments contributed by one result item (`transcriber.py`, lines
254-303): prefer a nonempty `sentence_info`; else a truthy `text` with a
nonempty `timestamp` list, else bare text, else nothing; non-dict items
become a single untimed segment of their string rendering. -/
def itemSegs : Item → List Seg
  | Item.other s => [{ start := 0, stop := 0, text := s, speaker := "" }]
  | Item.dict text si ts =>
    let t := text.getD ""
    let infos := si.getD []
    if infos ≠ [] then infos.map normSent
    else if t ≠ "" then
      let tl := ts.getD []
      if tl ≠ [] then tsSegs t 0 tl
      else [{ start := 0, stop := 0, text := t, speaker := "" }]
    else []

/-- `transcriber._parse_funasr_result` (lines 243-305): concatenate the
segments of every item, in order (an empty result yields the empty list). -/
def parse_funasr_result (result : List Item) : List Seg :=
  (result.map itemSegs).flatten

/-! ## Confirmation dialog (`notifier.py`) -/

/-- Outcome of the `osascript` subprocess run inside `_run_osascript`:
normal completion with the dialog's stdout, `subprocess.TimeoutExpired`,
or any other exception. -/
inductive OsaOutcome where
  | ok : String → OsaOutcome
  | timeout : OsaOutcome
  | errored : String → OsaOutcome
deriving DecidableEq

/-- `notifier._run_osascript` (lines 10-23): the stripped stdout on
success, the empty string on timeout or any execution error. -/
def run_osascript (o : OsaOutcome) : String :=
  match o with
  | OsaOutcome.ok stdout => stdout.trim
  | OsaOutcome.timeout => ""
  | OsaOutcome.errored _ => ""

/-- `notifier.ask_confirm` (lines 36-53): true exactly when the runner's
result is the accept button label `"转录"`. The filename and size appear
only in the dialog text and do not influence the returned value. -/
def ask_confirm (filename : String) (filesize_mb : Int)
    (o : OsaOutcome) : Bool :=
  let _ := filename
  let _ := filesize_mb
  run_osascript o == "转录"

/-! ## Stage order helpers (for the monotonicity claim) -/

/-- The `order` field of a stage's `STAGES` entry. -/
def stageOrder (s : String) : Nat := (STAGES_get s).order

/-- The stages a single task passes through (`waiting` … `done`/`failed`);
`idle` is reached only through `reset_to_idle`, which the monotonicity
invariant explicitly excepts. -/
def lifecycleStages : List String :=
  ["waiting", "extract", "detect", "transcribe", "save", "done", "failed"]

/-- Least possible derived percent while in stage `s`. -/
def stageLo (s : String) : Int :=
  if s = "transcribe" then 40 else (STAGES_get s).progress

/-- Greatest possible derived percent while in stage `s`. -/
def stageHi (s : String) : Int :=
  if s = "transcribe" then 90 else (STAGES_get s).progress

/-- A concrete system state for exercising the already-processed guard:
one task queued under `v.mp4`, its absolute path already in ProcessedRecord. -/
def c1State : SysState :=
  { prog := add_to_queue initState "v.mp4" 10 "12:00:00"
    processed := ["/watch/v.mp4"]
    movedFiles := [] }

/-- A poll stream whose every sample is the same positive size. -/
def obsAlwaysFive : Nat → Obs := fun _ => Obs.size 5

/-! ## Theorems -/

/-- Any initial accumulator bounds `List.foldl max` from below. -/
theorem le_foldl_max_init (l : List Int) (a : Int) : a ≤ l.foldl max a := by
  induction l generalizing a with
  | nil => exact le_refl a
  | cons x xs ih => exact le_trans (le_max_left a x) (ih (max a x))

/-- Every member of the list bounds `List.foldl max` from below. -/
theorem mem_le_foldl_max (x : Int) :
    ∀ (ys : List Int) (a : Int), x ∈ ys → x ≤ ys.foldl max a
  | y :: ys, a, hx => by
    rcases List.mem_cons.mp hx with rfl | h
    · exact le_trans (le_max_right a x) (le_foldl_max_init ys (max a x))
    · exact mem_le_foldl_max x ys (max a y) h

/-- Every member of the list is at most its Python-style max. -/
theorem mem_le_pyMaxD (l : List Int) (d x : Int) (hx : x ∈ l) :
    x ≤ pyMaxD l d := by
  match l, hx with
  | y :: ys, hx =>
    rcases List.mem_cons.mp hx with rfl | h
    · exact le_foldl_max_init ys x
    · exact mem_le_foldl_max x ys y h

/-- `STAGES_get` at the transcribe key has base percent 40. -/
theorem STAGES_get_transcribe_progress : (STAGES_get "transcribe").progress = 40 := by
  decide

/-- C2: for every stage and sub-percent, the derived overall percent is the
stage's fixed base percent, except in the `transcribe` stage with a positive
sub-percent `p`, where it is `min(40 + floor(p * 0.5), 90)`; in particular a
transcribe sub-percent of 60 yields an overall percent of exactly 70. -/
theorem C2_overall_percent (st : ProgressState) :
    compute_progress st =
      (if st.current_stage = "transcribe" ∧ 0 < st.transcribe_percent then
        min (40 + st.transcribe_percent / 2) 90
      else (STAGES_get st.current_stage).progress)
    ∧ compute_progress
        { initState with current_stage := "transcribe", transcribe_percent := 60 } =
      70 := by
  refine ⟨?_, by decide⟩
  by_cases h : st.current_stage = "transcribe" ∧ 0 < st.transcribe_percent
  · rw [compute_progress, if_pos h, if_pos h, h.1, STAGES_get_transcribe_progress]
  · rw [compute_progress, if_neg h, if_neg h]

/-- C5: finishing a task with `success = false` appends exactly one history
entry marked as failure (carrying the error truncated to 50 characters),
increments the failed counter by exactly 1, and leaves the completed counter
unchanged; finishing with `success = true` appends one success entry,
increments the completed counter by 1, and leaves the failed counter
unchanged. -/
theorem C5_finish_counters (st : ProgressState) (nowStr : String) (now : Nat)
    (lang : String) (segments speakers : Nat) :
    (finish st nowStr now false lang segments speakers).history =
      st.history ++
        [{ time := nowStr
           file := st.filename
           result := "❌"
           lang := none
           error := some (st.error.take 50)
           elapsed := elapsed_str st now }]
    ∧ (finish st nowStr now false lang segments speakers).total_failed =
      st.total_failed + 1
    ∧ (finish st nowStr now false lang segments speakers).total_completed =
      st.total_completed
    ∧ (finish st nowStr now true lang segments speakers).history =
      st.history ++
        [{ time := nowStr
           file := st.filename
           result := "✅"
           lang := some lang
           error := none
           elapsed := elapsed_str st now }]
    ∧ (finish st nowStr now true lang segments speakers).total_completed =
      st.total_completed + 1
    ∧ (finish st nowStr now true lang segments speakers).total_failed =
      st.total_failed :=
  ⟨rfl, rfl, rfl, rfl, rfl, rfl⟩

/-- C8: `reset_to_idle` returns every per-task field to its zero value
(stage `idle`, empty filename/detail/error, zero size, duration and
transcribe sub-percent, cleared start time) while preserving the cumulative
completed and failed counters, the queue list, and the history. -/
theorem C8_reset_to_idle (st : ProgressState) :
    (reset_to_idle st).current_stage = "idle"
    ∧ (reset_to_idle st).filename = ""
    ∧ (reset_to_idle st).filesize_mb = 0
    ∧ (reset_to_idle st).duration_sec = 0
    ∧ (reset_to_idle st).detail = ""
    ∧ (reset_to_idle st).transcribe_percent = 0
    ∧ (reset_to_idle st).error = ""
    ∧ (reset_to_idle st).start_time = none
    ∧ (reset_to_idle st).total_completed = st.total_completed
    ∧ (reset_to_idle st).total_failed = st.total_failed
    ∧ (reset_to_idle st).queue = st.queue
    ∧ (reset_to_idle st).history = st.history :=
  ⟨rfl, rfl, rfl, rfl, rfl, rfl, rfl, rfl, rfl, rfl, rfl, rfl⟩

/-- C9: the confirmation step returns true exactly when the wrapped runner's
result is the accept button label `"转录"` (the runner returns the dialog's
stripped stdout); on subprocess timeout or any execution error the runner
returns the empty string, so the confirmation deterministically returns
false. -/
theorem C9_confirm_default_deny (filename : String) (filesize_mb : Int) :
    (∀ o, ask_confirm filename filesize_mb o = true ↔ run_osascript o = "转录")
    ∧ (∀ s, ask_confirm filename filesize_mb (OsaOutcome.ok s) = true ↔
        s.trim = "转录")
    ∧ run_osascript OsaOutcome.timeout = ""
    ∧ (∀ m, run_osascript (OsaOutcome.errored m) = "")
    ∧ ask_confirm filename filesize_mb OsaOutcome.timeout = false
    ∧ (∀ m, ask_confirm filename filesize_mb (OsaOutcome.errored m) = false) := by
  refine ⟨fun o => ?_, fun s => ?_, rfl, fun m => rfl, rfl, fun m => rfl⟩
  · simp [ask_confirm]
  · simp [ask_confirm, run_osascript]

/-- C10: removing a task from the observable queue by filename removes every
queue entry whose filename equals the given name and preserves the other
entries in order (the queue becomes the filter of the old queue); in
particular, after enqueueing `a.mp4`, `b.mp4`, `a.mp4`, removing `a.mp4`
deletes both matching entries and keeps only `b.mp4`. -/
theorem C10_remove_from_queue_all (st : ProgressState) (fn : String) :
    (remove_from_queue st fn).queue =
      st.queue.filter (fun e => e.filename != fn)
    ∧ (remove_from_queue
        (add_to_queue
          (add_to_queue (add_to_queue initState "a.mp4" 10 "09:00:00")
            "b.mp4" 20 "09:00:05")
          "a.mp4" 10 "09:00:09")
        "a.mp4").queue =
      [{ filename := "b.mp4", filesize_mb := 20, queued_at := "09:00:05" }] :=
  ⟨rfl, by decide⟩

/-- C1 (counterexample): with the task's path already in ProcessedRecord
and a matching entry in the queue, `process_video` does NOT leave the
observable state unchanged — the queue entry is removed and a status
serialization occurs before the guard aborts. -/
theorem C1_counterexample :
    is_processed c1State.processed "/watch/v.mp4" = true
    ∧ (process_video id 0 c1State "/watch/v.mp4" "v.mp4" 10).prog.queue ≠
      c1State.prog.queue
    ∧ (process_video id 0 c1State "/watch/v.mp4" "v.mp4" 10).prog.writes ≠
      c1State.prog.writes := by
  decide

/-- C1 (amended): for every task path already present in ProcessedRecord,
`process_video` first removes every queue entry matching the task's
filename and serializes status once, and only then aborts: no stage
transition happens (stage, filename, detail, error, sub-percent, start
time, counters and history keep their values), the processed ledger is not
written, and no file is moved. -/
theorem C1_processed_abort (rest : SysState → SysState) (now : Nat)
    (s : SysState) (path filename : String) (filesize_mb : Int)
    (h : is_processed s.processed path = true) :
    process_video rest now s path filename filesize_mb =
      { s with prog := remove_from_queue s.prog filename }
    ∧ (process_video rest now s path filename filesize_mb).prog.current_stage =
      s.prog.current_stage
    ∧ (process_video rest now s path filename filesize_mb).prog.filename =
      s.prog.filename
    ∧ (process_video rest now s path filename filesize_mb).prog.detail =
      s.prog.detail
    ∧ (process_video rest now s path filename filesize_mb).prog.error =
      s.prog.error
    ∧ (process_video rest now s path filename filesize_mb).prog.transcribe_percent =
      s.prog.transcribe_percent
    ∧ (process_video rest now s path filename filesize_mb).prog.start_time =
      s.prog.start_time
    ∧ (process_video rest now s path filename filesize_mb).prog.history =
      s.prog.history
    ∧ (process_video rest now s path filename filesize_mb).prog.total_completed =
      s.prog.total_completed
    ∧ (process_video rest now s path filename filesize_mb).prog.total_failed =
      s.prog.total_failed
    ∧ (process_video rest now s path filename filesize_mb).processed =
      s.processed
    ∧ (process_video rest now s path filename filesize_mb).movedFiles =
      s.movedFiles
    ∧ (process_video rest now s path filename filesize_mb).prog.queue =
      s.prog.queue.filter (fun e => e.filename != filename)
    ∧ (process_video rest now s path filename filesize_mb).prog.writes =
      s.prog.writes + 1 := by
  have heq : process_video rest now s path filename filesize_mb =
      { s with prog := remove_from_queue s.prog filename } := by
    unfold process_video
    exact if_pos h
  refine ⟨heq, ?_⟩
  rw [heq]
  exact ⟨rfl, rfl, rfl, rfl, rfl, rfl, rfl, rfl, rfl, rfl, rfl, rfl, rfl⟩

/-- Witness for `C1_processed_abort` at a concrete state. -/
theorem C1_processed_abort_witness :
    is_processed c1State.processed "/watch/v.mp4" = true
    ∧ (process_video id 0 c1State "/watch/v.mp4" "v.mp4" 10).prog.writes =
      c1State.prog.writes + 1 :=
  ⟨by decide,
   (C1_processed_abort id 0 c1State "/watch/v.mp4" "v.mp4" 10
      (by decide)).2.2.2.2.2.2.2.2.2.2.2.2.2⟩

/-- C4: the next index is one more than the maximum index parsed from the
existing stems matching `{year}_{month}_{day}_{lang}_` after stripping a
`fail_` prefix (non-integer suffixes skipped, default 0 when none match);
every parsed index is strictly below the generated one, and in particular
with existing `2026_1_1_zh_1`, `2026_1_1_zh_2`, `fail_2026_1_1_zh_5` the
next name for `zh` on that date is `2026_1_1_zh_6`. -/
theorem C4_next_index (files : List String) (y m d : Nat) (lang : String) :
    generate_standard_name
      ["2026_1_1_zh_1", "2026_1_1_zh_2", "fail_2026_1_1_zh_5"] 2026 1 1 "zh" =
      "2026_1_1_zh_6"
    ∧ get_next_index files y m d lang =
      pyMaxD (parsedIndices files y m d lang) 0 + 1
    ∧ ∀ i ∈ parsedIndices files y m d lang,
        i < get_next_index files y m d lang := by
  refine ⟨by decide, rfl, fun i hi => ?_⟩
  have hle := mem_le_pyMaxD (parsedIndices files y m d lang) 0 i hi
  unfold get_next_index
  omega

/-- Witness for `C4_next_index`: the parsed index 5 (from the stripped
`fail_` stem) is strictly below the generated index 6. -/
theorem C4_next_index_witness :
    (5 : Int) ∈ parsedIndices
      ["2026_1_1_zh_1", "2026_1_1_zh_2", "fail_2026_1_1_zh_5"] 2026 1 1 "zh"
    ∧ (5 : Int) < get_next_index
      ["2026_1_1_zh_1", "2026_1_1_zh_2", "fail_2026_1_1_zh_5"] 2026 1 1 "zh" :=
  ⟨by decide,
   (C4_next_index ["2026_1_1_zh_1", "2026_1_1_zh_2", "fail_2026_1_1_zh_5"]
      2026 1 1 "zh").2.2 5 (by decide)⟩

/-- `compute_progress` outside the transcribe stage is the base percent. -/
theorem compute_progress_of_ne (st : ProgressState)
    (h : st.current_stage ≠ "transcribe") :
    compute_progress st = (STAGES_get st.current_stage).progress := by
  rw [compute_progress, if_neg]
  exact fun hc => h hc.1

/-- `compute_progress` in the transcribe stage, as a function of the
sub-percent. -/
theorem compute_progress_transcribe (st : ProgressState)
    (h : st.current_stage = "transcribe") :
    compute_progress st =
      if 0 < st.transcribe_percent
      then min (40 + st.transcribe_percent / 2) 90 else 40 := by
  rw [compute_progress, h, STAGES_get_transcribe_progress]
  by_cases htp : 0 < st.transcribe_percent
  · rw [if_pos ⟨rfl, htp⟩, if_pos htp]
  · rw [if_neg (fun hc => htp hc.2), if_neg htp]

/-- The derived percent is at least the stage's lower bound. -/
theorem stageLo_le_compute (st : ProgressState) :
    stageLo st.current_stage ≤ compute_progress st := by
  by_cases h : st.current_stage = "transcribe"
  · rw [compute_progress_transcribe st h, stageLo, if_pos h]
    by_cases htp : 0 < st.transcribe_percent
    · rw [if_pos htp]
      exact le_min (by omega) (by norm_num)
    · rw [if_neg htp]
  · rw [compute_progress_of_ne st h, stageLo, if_neg h]

/-- The derived percent is at most the stage's upper bound. -/
theorem compute_le_stageHi (st : ProgressState) :
    compute_progress st ≤ stageHi st.current_stage := by
  by_cases h : st.current_stage = "transcribe"
  · rw [compute_progress_transcribe st h, stageHi, if_pos h]
    by_cases htp : 0 < st.transcribe_percent
    · rw [if_pos htp]
      exact min_le_right _ _
    · rw [if_neg htp]
      norm_num
  · rw [compute_progress_of_ne st h, stageHi, if_neg h]

/-- Within the transcribe stage the derived percent is monotone in the
sub-percent. -/
theorem compute_transcribe_mono (st st2 : ProgressState)
    (h : st.current_stage = "transcribe")
    (h2 : st2.current_stage = "transcribe")
    (htp : st.transcribe_percent ≤ st2.transcribe_percent) :
    compute_progress st ≤ compute_progress st2 := by
  rw [compute_progress_transcribe st h, compute_progress_transcribe st2 h2]
  by_cases ha : 0 < st.transcribe_percent
  · rw [if_pos ha, if_pos (lt_of_lt_of_le ha htp)]
    exact min_le_min (by omega) (le_refl 90)
  · rw [if_neg ha]
    by_cases hb : 0 < st2.transcribe_percent
    · rw [if_pos hb]
      exact le_min (by omega) (by norm_num)
    · rw [if_neg hb]

/-- Over the task lifecycle stages, percent ranges of order-earlier stages
lie below those of later stages (checked by enumeration). -/
theorem stage_pair_bound :
    ∀ s ∈ lifecycleStages, ∀ s2 ∈ lifecycleStages,
      stageOrder s ≤ stageOrder s2 → (s = s2 ∨ stageHi s ≤ stageLo s2) := by
  decide

/-- C6: within a single task's lifetime (stages ordered `waiting` →
`extract` → `detect` → `transcribe` → `save` → `done`/`failed`, transcribe
sub-percent non-decreasing), the derived overall percent is non-decreasing
at every transition, and equals exactly 100 in the `done` and `failed`
stages. -/
theorem C6_percent_monotone :
    (∀ st st2 : ProgressState,
      st.current_stage ∈ lifecycleStages →
      st2.current_stage ∈ lifecycleStages →
      stageOrder st.current_stage ≤ stageOrder st2.current_stage →
      st.transcribe_percent ≤ st2.transcribe_percent →
      compute_progress st ≤ compute_progress st2)
    ∧ (∀ st : ProgressState,
      st.current_stage = "done" ∨ st.current_stage = "failed" →
      compute_progress st = 100) := by
  constructor
  · intro st st2 h1 h2 hord htp
    rcases stage_pair_bound _ h1 _ h2 hord with heq | hlo
    · by_cases htr : st.current_stage = "transcribe"
      · exact compute_transcribe_mono st st2 htr (by rw [← heq]; exact htr) htp
      · have h2ne : st2.current_stage ≠ "transcribe" := by
          rw [← heq]; exact htr
        rw [compute_progress_of_ne st htr, compute_progress_of_ne st2 h2ne,
          ← heq]
    · exact le_trans (compute_le_stageHi st) (le_trans hlo (stageLo_le_compute st2))
  · intro st h
    rcases h with h | h
    · rw [compute_progress_of_ne st (by rw [h]; decide), h]
      decide
    · rw [compute_progress_of_ne st (by rw [h]; decide), h]
      decide

/-- Witness for `C6_percent_monotone` at concrete stages. -/
theorem C6_percent_monotone_witness :
    compute_progress { initState with current_stage := "extract" } ≤
      compute_progress
        { initState with current_stage := "transcribe", transcribe_percent := 60 }
    ∧ compute_progress { initState with current_stage := "failed" } = 100 :=
  ⟨C6_percent_monotone.1 _ _ (by decide) (by decide) (by decide) (by decide),
   C6_percent_monotone.2 { initState with current_stage := "failed" }
     (Or.inr rfl)⟩

/-- The flat-text timestamp loop on a list of well-formed pairs yields one
segment per pair, the text attached only at enumeration index 0. -/
theorem tsSegs_pairs (t : String) :
    ∀ (i : Nat) (ps : List (Int × Int)),
      tsSegs t i (ps.map fun p => TSEntry.nums [p.1, p.2]) =
        (List.enumFrom i ps).map
          (fun q => { start := q.2.1, stop := q.2.2,
                      text := if q.1 = 0 then t else "", speaker := "" })
  | _, [] => rfl
  | i, p :: ps => by
    simp only [List.map_cons, tsSegs, List.enumFrom, List.map]
    rw [tsSegs_pairs t (i + 1) ps]

/-- C7: normalization of the three collaborator result shapes — (a) items
with per-sentence info map to one segment per sentence with missing
`start`/`end` defaulting to 0, missing `speaker` to the empty string and
integer speaker ids rendered as `spk{n}`; (b) an item with flat text plus a
timestamp list yields one segment per span with the text attached only to
the first span; (c) an item with bare text yields a single untimed
segment. -/
theorem C7_parse_shapes :
    (∀ (text : Option String) (si : List Sentence) (ts : Option (List TSEntry)),
      si ≠ [] → itemSegs (Item.dict text (some si) ts) = si.map normSent)
    ∧ (∀ (a b : Option Int) (tx : Option String),
      normSent { start := a, stop := b, text := tx, spk := none } =
        { start := a.getD 0, stop := b.getD 0, text := tx.getD "",
          speaker := "" })
    ∧ (∀ (a b : Option Int) (tx : Option String) (n : Int),
      (normSent
        { start := a, stop := b, text := tx, spk := some (Spk.int n) }).speaker =
        "spk" ++ toString n)
    ∧ (∀ (t : String) (ps : List (Int × Int)), t ≠ "" → ps ≠ [] →
      itemSegs (Item.dict (some t) none
          (some (ps.map fun p => TSEntry.nums [p.1, p.2]))) =
        (List.enumFrom 0 ps).map
          (fun q => { start := q.2.1, stop := q.2.2,
                      text := if q.1 = 0 then t else "", speaker := "" }))
    ∧ (∀ t : String, t ≠ "" →
      itemSegs (Item.dict (some t) none none) =
        [{ start := 0, stop := 0, text := t, speaker := "" }]) := by
  refine ⟨?_, fun a b tx => rfl, fun a b tx n => rfl, ?_, ?_⟩
  · intro text si ts h
    simp only [itemSegs, Option.getD_some]
    rw [if_pos h]
  · intro t ps ht hps
    simp only [itemSegs, Option.getD_some, Option.getD_none]
    rw [if_neg (fun hc => hc rfl), if_pos ht,
      if_pos (fun hc => hps (List.map_eq_nil_iff.mp hc))]
    exact tsSegs_pairs t 0 ps
  · intro t ht
    simp only [itemSegs, Option.getD_some, Option.getD_none]
    rw [if_neg (fun hc => hc rfl), if_pos ht, if_neg (fun hc => hc rfl)]

/-- Witness for `C7_parse_shapes` at concrete inputs of all three shapes. -/
theorem C7_parse_shapes_witness :
    itemSegs (Item.dict none
        (some [{ start := none, stop := none, text := some "hello",
                 spk := some (Spk.int 0) }]) none) =
      [{ start := none, stop := none, text := some "hello",
         spk := some (Spk.int 0) }].map normSent
    ∧ itemSegs (Item.dict (some "ab") none
        (some ([((1 : Int), (2 : Int)), (3, 4)].map
          fun p => TSEntry.nums [p.1, p.2]))) =
      (List.enumFrom 0 [((1 : Int), (2 : Int)), (3, 4)]).map
        (fun q => { start := q.2.1, stop := q.2.2,
                    text := if q.1 = 0 then "ab" else "", speaker := "" })
    ∧ itemSegs (Item.dict (some "x") none none) =
      [{ start := 0, stop := 0, text := "x", speaker := "" }] :=
  ⟨C7_parse_shapes.1 none _ none (by decide),
   C7_parse_shapes.2.2.2.1 "ab" [(1, 2), (3, 4)] (by decide) (by decide),
   C7_parse_shapes.2.2.2.2 "x" (by decide)⟩

/-- Complete characterization of the stability-wait loop from an arbitrary
loop state, provided enough fuel: it returns true exactly when, within the
wait budget and with no missing-path or I/O-error poll in between, some
poll repeats the previous positive size sample. -/
theorem wait_from_iff (obs : Nat → Obs) (interval maxWait : Nat)
    (hI : 0 < interval) :
    ∀ (fuel n : Nat) (prev : Int), maxWait ≤ n * interval + fuel →
    (wait_from obs interval maxWait prev n fuel = true ↔
      ∃ m, n ≤ m ∧ m * interval < maxWait ∧
        (∀ k, n ≤ k → k ≤ m → ∃ s, obs k = Obs.size s) ∧
        ∃ s, 0 < s ∧ obs m = Obs.size s ∧
          ((m = n ∧ (s : Int) = prev) ∨ (n < m ∧ obs (m - 1) = Obs.size s))) := by
  intro fuel
  induction fuel with
  | zero =>
    intro n prev hle
    constructor
    · intro h
      simp only [wait_from] at h
      exact absurd h (by decide)
    · rintro ⟨m, hnm, hmlt, -, -⟩
      have hmul : n * interval ≤ m * interval := mul_le_mul_right' hnm interval
      exact absurd hmlt (by linarith)
  | succ fuel ih =>
    intro n prev hle
    by_cases hlt : n * interval < maxWait
    · cases hobs : obs n with
      | missing =>
        have hres : wait_from obs interval maxWait prev n (fuel + 1) = false := by
          simp [wait_from, hobs, hlt]
        rw [hres]
        constructor
        · intro h
          exact absurd h (by decide)
        · rintro ⟨m, hnm, -, hall, -⟩
          obtain ⟨s, hs⟩ := hall n (le_refl n) hnm
          rw [hobs] at hs
          exact Obs.noConfusion hs
      | ioerr =>
        have hres : wait_from obs interval maxWait prev n (fuel + 1) = false := by
          simp [wait_from, hobs, hlt]
        rw [hres]
        constructor
        · intro h
          exact absurd h (by decide)
        · rintro ⟨m, hnm, -, hall, -⟩
          obtain ⟨s, hs⟩ := hall n (le_refl n) hnm
          rw [hobs] at hs
          exact Obs.noConfusion hs
      | size sz =>
        by_cases hcond : 0 < sz ∧ (sz : Int) = prev
        · have hres : wait_from obs interval maxWait prev n (fuel + 1) = true := by
            simp [wait_from, hobs, hlt, hcond]
          rw [hres]
          constructor
          · intro _
            refine ⟨n, le_refl n, hlt, ?_, sz, hcond.1, hobs,
              Or.inl ⟨rfl, hcond.2⟩⟩
            intro k hk1 hk2
            have hk : k = n := le_antisymm hk2 hk1
            rw [hk, hobs]
            exact ⟨sz, rfl⟩
          · intro _
            rfl
        · have hfuel : maxWait ≤ (n + 1) * interval + fuel := by
            have hx : (n + 1) * interval = n * interval + interval := by ring
            rw [hx]
            linarith
          have hres : wait_from obs interval maxWait prev n (fuel + 1) =
              wait_from obs interval maxWait (sz : Int) (n + 1) fuel := by
            simp [wait_from, hobs, hlt, hcond]
          rw [hres, ih (n + 1) (sz : Int) hfuel]
          constructor
          · rintro ⟨m, hm1, hm2, hall, t, ht0, htm, hdisj⟩
            refine ⟨m, le_trans (Nat.le_succ n) hm1, hm2, ?_, t, ht0, htm, ?_⟩
            · intro k hk1 hk2
              rcases Nat.eq_or_lt_of_le hk1 with heq | hk
              · rw [← heq]
                exact ⟨sz, hobs⟩
              · exact hall k hk hk2
            · rcases hdisj with ⟨hm, htEq⟩ | ⟨hlt2, hprev⟩
              · have hts : t = sz := by exact_mod_cast htEq
                refine Or.inr ⟨by omega, ?_⟩
                rw [hm, Nat.add_sub_cancel, hobs, hts]
              · exact Or.inr ⟨by omega, hprev⟩
          · rintro ⟨m, hm1, hm2, hall, t, ht0, htm, hdisj⟩
            rcases hdisj with ⟨hm, htprev⟩ | ⟨hnm, hprev⟩
            · exfalso
              rw [hm, hobs] at htm
              injection htm with hts
              refine hcond ⟨by omega, ?_⟩
              rw [hts]
              exact htprev
            · refine ⟨m, by omega, hm2, ?_, t, ht0, htm, ?_⟩
              · intro k hk1 hk2
                exact hall k (by omega) hk2
              · by_cases hmn : m = n + 1
                · have hpn : obs n = Obs.size t := by
                    rw [← Nat.add_sub_cancel (n := n) (m := 1)]
                    rw [← hmn]
                    exact hprev
                  rw [hobs] at hpn
                  injection hpn with hts
                  exact Or.inl ⟨hmn, by rw [← hts]⟩
                · exact Or.inr ⟨by omega, hprev⟩
    · have hres : wait_from obs interval maxWait prev n (fuel + 1) = false := by
        simp [wait_from, hlt]
      rw [hres]
      constructor
      · intro h
        exact absurd h (by decide)
      · rintro ⟨m, hnm, hmlt, -, -⟩
        have hmul : n * interval ≤ m * interval := mul_le_mul_right' hnm interval
        have hge : maxWait ≤ n * interval := Nat.le_of_not_lt hlt
        exact absurd hmlt (by linarith)

/-- C3: the stability wait returns true exactly when two consecutive polls
within the wait budget see equal sizes strictly greater than 0 with every
earlier poll also returning a size — so it returns false whenever the path
disappears or a stat raises an I/O error before a stable pair, and false
when the accumulated wait reaches the budget without a stable reading. -/
theorem C3_wait_for_stable (obs : Nat → Obs) (interval maxWait : Nat)
    (hI : 0 < interval) :
    wait_for_stable obs interval maxWait = true ↔
      ∃ n, (n + 1) * interval < maxWait ∧
        (∀ k, k ≤ n + 1 → ∃ s, obs k = Obs.size s) ∧
        ∃ s, 0 < s ∧ obs n = Obs.size s ∧ obs (n + 1) = Obs.size s := by
  have hfuel : maxWait ≤ 0 * interval + (maxWait + 1) := by
    simp
  rw [wait_for_stable,
    wait_from_iff obs interval maxWait hI (maxWait + 1) 0 (-1) hfuel]
  constructor
  · rintro ⟨m, -, hmlt, hall, s, hs0, hsm, hdisj⟩
    rcases hdisj with ⟨-, habs⟩ | ⟨hm0, hprev⟩
    · exfalso
      omega
    · have h1 : m - 1 + 1 = m := by omega
      refine ⟨m - 1, ?_, ?_, s, hs0, hprev, ?_⟩
      · rw [h1]
        exact hmlt
      · intro k hk
        exact hall k (Nat.zero_le k) (by omega)
      · rw [h1]
        exact hsm
  · rintro ⟨n, hlt, hall, s, hs0, hsn, hsn1⟩
    refine ⟨n + 1, Nat.zero_le _, hlt, ?_, s, hs0, hsn1,
      Or.inr ⟨Nat.succ_pos n, ?_⟩⟩
    · intro k hk1 hk2
      exact hall k hk2
    · rw [Nat.add_sub_cancel]
      exact hsn

/-- Witness for `C3_wait_for_stable` at the configured poll interval and
wait budget, on a stream of constant positive sizes. -/
theorem C3_wait_for_stable_witness :
    0 < FILE_STABLE_CHECK_INTERVAL
    ∧ (wait_for_stable obsAlwaysFive FILE_STABLE_CHECK_INTERVAL
        FILE_STABLE_MAX_WAIT = true ↔
      ∃ n, (n + 1) * FILE_STABLE_CHECK_INTERVAL < FILE_STABLE_MAX_WAIT ∧
        (∀ k, k ≤ n + 1 → ∃ s, obsAlwaysFive k = Obs.size s) ∧
        ∃ s, 0 < s ∧ obsAlwaysFive n = Obs.size s ∧
          obsAlwaysFive (n + 1) = Obs.size s) :=
  ⟨by decide,
   C3_wait_for_stable obsAlwaysFive FILE_STABLE_CHECK_INTERVAL
     FILE_STABLE_MAX_WAIT (by decide)⟩

end AutoTranscribe
